import Mathlib

/-!
Shallow embedding of the LangStream Python gRPC agent bridge
(`langstream_grpc/grpc_service.py`): the value codec with its outbound
schema registry and inbound schema cache, the record marshaller, the
Source/Processor/Sink stream state machines, the reflective hook
dispatch helper, and the main-hook crash path.

External libraries used by the bridge (fastavro's schemaless binary
codec, the json module) are collaborators outside the bridge; they are
modelled as faithful transports of the structured payload, since the
bridge never inspects the bytes they produce.  Everything else is
translated clause by clause from the Python source.
-/

namespace GrpcService

/-- Generic Python-dict lookup on an association list (newest binding
first, matching dict overwrite modelled as cons). -/
def dict_lookup {κ α : Type} [DecidableEq κ] (k : κ) : List (κ × α) → Option α
  | [] => Option.none
  | (k', v) :: rest => if k = k' then some v else dict_lookup k rest

/-- Removal of a key from an association list; with the unique-key
invariant a Python dict maintains, this is `dict.pop` dropping the one
binding for `k`. -/
def dict_remove {κ α : Type} [DecidableEq κ] (k : κ) : List (κ × α) → List (κ × α)
  | [] => []
  | (k', v) :: rest =>
      if k = k' then dict_remove k rest else (k', v) :: dict_remove k rest

/-- Python's `dict.pop(k, None)`: the removed value (if any) and the
remaining dict. -/
def dict_pop {κ α : Type} [DecidableEq κ] (m : List (κ × α)) (k : κ) :
    Option α × List (κ × α) :=
  match dict_lookup k m with
  | some v => (some v, dict_remove k m)
  | Option.none => (Option.none, m)

/-- An avro schema, identified by its parsing canonical form
(`fastavro.schema.to_parsing_canonical_form`): structurally equal
schemas normalize to the same canonical string, so the canonical string
is the whole identity the bridge ever uses. -/
structure AvroSchema where
  canonical : String
deriving DecidableEq

/-- Canonical-form function of fastavro, modelled on the canonical
identification above. -/
def to_parsing_canonical_form (s : AvroSchema) : String :=
  s.canonical

/-- Structured payload carried inside an `AvroValue`.  The bridge never
looks inside it; a small closed datum type suffices. -/
inductive AvroDatum where
  | null
  | boolean (b : Bool)
  | long (i : Int)
  | str (s : String)
deriving DecidableEq

/-- Bytes produced by `fastavro.schemaless_writer`.  fastavro is an
external library: its binary format is modelled as a faithful transport
of the datum (the bridge treats these bytes as opaque). -/
abbrev AvroBytes := AvroDatum

/-- fastavro `schemaless_writer`, transport model. -/
def schemaless_writer (_s : AvroSchema) (d : AvroDatum) : AvroBytes := d

/-- fastavro `schemaless_reader`, transport model (inverse of the
writer when given the same schema). -/
def schemaless_reader (_s : AvroSchema) (b : AvroBytes) : AvroDatum := b

/-- JSON-serializable Python data (the content of a schema-less dict or
list value).  The json module's dumps/loads round-trip is external to
the bridge; the wire `json_value` field is modelled as carrying this
parsed content. -/
inductive PyJson where
  | null
  | boolean (b : Bool)
  | num (i : Int)
  | str (s : String)
  | arr (elems : List PyJson)
  | obj (fields : List (String × PyJson))

/-- IEEE-754 double payloads are carried opaquely by the bridge (copied,
never computed with); modelled by their 64-bit pattern. -/
structure DoubleBits where
  bits : Nat
deriving DecidableEq

/-- Byte strings. -/
abbrev ByteBlob := List Nat

/-- The closed set of Python domain values the codec supports, one
constructor per `isinstance` branch of `AgentService.to_grpc_value`
(plus `none` for Python None). -/
inductive PyValue where
  | none
  | bytes (b : ByteBlob)
  | str (s : String)
  | boolean (b : Bool)
  | int (i : Int)
  | float (d : DoubleBits)
  | avroValue (schema : AvroSchema) (value : AvroDatum)
  | dict (fields : List (String × PyJson))
  | list (elems : List PyJson)

/-- Wire `Value` message: exactly one oneof variant populated.  The
unset case is represented by `Option.none` at each use site, matching
`WhichOneof("type_oneof") is None`. -/
inductive WireValue where
  | bytesValue (b : ByteBlob)
  | stringValue (s : String)
  | booleanValue (b : Bool)
  | longValue (i : Int)
  | doubleValue (d : DoubleBits)
  | avroValue (schema_id : Nat) (payload : AvroBytes)
  | jsonValue (content : PyJson)

/-- Wire `Schema` message: a schema announcement carrying the numeric
id this process chose and the canonical schema string. -/
structure SchemaMsg where
  schema_id : Nat
  value : String
deriving DecidableEq

/-- Outbound codec state of an `AgentService` instance: the
`self.schema_id` counter (starts at 0) and the `self.schemas` dict from
canonical schema string to assigned id. -/
structure CodecState where
  schema_id : Nat
  schemas : List (String × Nat)

/-- Inbound schema cache `self.client_schemas`: peer-chosen id to the
parsed schema. -/
abbrev SchemaCache := List (Nat × AvroSchema)

/-- Errors the decoding path can raise. `keyError` is the Python
KeyError from `self.client_schemas[value.schema_id]` on an unannounced
id; `attributeError` is the AttributeError from a missing module or
object attribute; `runtimeError` stands for any exception raised by
agent code, carrying its `str(e)` message. -/
inductive PyErr where
  | keyError (schema_id : Nat)
  | attributeError (name : String)
  | runtimeError (msg : String)
deriving DecidableEq

/-- Python `str(e)` for the errors above (str of `KeyError(k)` shows
the key). -/
def PyErr.message : PyErr → String
  | .keyError sid => toString sid
  | .attributeError n => n
  | .runtimeError m => m

/-- AgentService.to_grpc_value, translated branch by branch.  Returns
the updated codec state, the schema announcement produced (if the
canonical schema was unseen), and the wire value (`Option.none` for a
None input, which the caller leaves unset on the wire).  Note the avro
branch attaches `self.schema_id` — the current counter — to the wire
value, exactly as the source does. -/
def to_grpc_value (st : CodecState) :
    PyValue → CodecState × Option SchemaMsg × Option WireValue
  | .none => (st, Option.none, Option.none)
  | .bytes b => (st, Option.none, some (.bytesValue b))
  | .str s => (st, Option.none, some (.stringValue s))
  | .boolean b => (st, Option.none, some (.booleanValue b))
  | .int i => (st, Option.none, some (.longValue i))
  | .float d => (st, Option.none, some (.doubleValue d))
  | .avroValue sch d =>
      let schema_str := to_parsing_canonical_form sch
      match dict_lookup schema_str st.schemas with
      | some _ =>
          (st, Option.none,
           some (.avroValue st.schema_id (schemaless_writer sch d)))
      | Option.none =>
          let newId := st.schema_id + 1
          let st' : CodecState := ⟨newId, (schema_str, newId) :: st.schemas⟩
          (st', some ⟨newId, schema_str⟩,
           some (.avroValue newId (schemaless_writer sch d)))
  | .dict fields => (st, Option.none, some (.jsonValue (.obj fields)))
  | .list elems => (st, Option.none, some (.jsonValue (.arr elems)))

/-- Python value a parsed JSON text denotes (what `json.loads` hands
back for each JSON node). -/
def pyOfJson : PyJson → PyValue
  | .null => .none
  | .boolean b => .boolean b
  | .num i => .int i
  | .str s => .str s
  | .arr elems => .list elems
  | .obj fields => .dict fields

/-- AgentService.from_grpc_value: unset decodes to None; an avro value
looks up `self.client_schemas[value.schema_id]` (KeyError when the id
was never announced) and reads the payload back with the cached schema;
a json value parses; scalar variants decode directly. -/
def from_grpc_value (cache : SchemaCache) :
    Option WireValue → Except PyErr PyValue
  | Option.none => .ok .none
  | some (.avroValue sid payload) =>
      match dict_lookup sid cache with
      | Option.none => .error (.keyError sid)
      | some sch => .ok (.avroValue sch (schemaless_reader sch payload))
  | some (.jsonValue content) => .ok (pyOfJson content)
  | some (.bytesValue b) => .ok (.bytes b)
  | some (.stringValue s) => .ok (.str s)
  | some (.booleanValue b) => .ok (.boolean b)
  | some (.longValue i) => .ok (.int i)
  | some (.doubleValue d) => .ok (.float d)

/-- Domain record as built by `SimpleRecord` in the Python util module:
value, key (None when absent), ordered headers, optional origin,
optional timestamp (milliseconds). -/
structure SimpleRecord where
  value : PyValue
  key : PyValue
  headers : List (String × PyValue)
  origin : Option String
  timestamp : Option Int

/-- RecordWithId: a SimpleRecord tagged with the wire correlation id,
as built by `AgentService.from_grpc_record`. -/
structure RecordWithId where
  record_id : Nat
  value : PyValue
  key : PyValue
  headers : List (String × PyValue)
  origin : Option String
  timestamp : Option Int

/-- Wire `Record` message: correlation id, value/key (unset modelled as
`Option.none`), headers, origin (proto3 string, empty by default), and
timestamp with explicit field presence. -/
structure GrpcRecord where
  record_id : Nat
  value : Option WireValue
  key : Option WireValue
  headers : List (String × Option WireValue)
  origin : String
  timestamp : Option Int

/-- Decoding of the header list inside from_grpc_record (the list
comprehension over `record.headers`); the first failing header aborts
the whole record decode, as in Python. -/
def decode_headers (cache : SchemaCache) :
    List (String × Option WireValue) → Except PyErr (List (String × PyValue))
  | [] => .ok []
  | (n, wv) :: rest => do
      let v ← from_grpc_value cache wv
      let vs ← decode_headers cache rest
      .ok ((n, v) :: vs)

/-- AgentService.from_grpc_record: decodes value, key and headers with
the value codec, keeps the wire correlation id, turns an empty origin
string into None, and keeps the timestamp only when the wire field is
explicitly present. -/
def from_grpc_record (cache : SchemaCache) (g : GrpcRecord) :
    Except PyErr RecordWithId := do
  let v ← from_grpc_value cache g.value
  let k ← from_grpc_value cache g.key
  let hs ← decode_headers cache g.headers
  .ok { record_id := g.record_id, value := v, key := k, headers := hs,
        origin := if g.origin = "" then Option.none else some g.origin,
        timestamp := g.timestamp }

/-- Encoding of the header list inside to_grpc_record, threading the
codec state and collecting announcements in header order. -/
def encode_headers (st : CodecState) :
    List (String × PyValue) →
      CodecState × List SchemaMsg × List (String × Option WireValue)
  | [] => (st, [], [])
  | (n, v) :: rest =>
      let (st1, s, wv) := to_grpc_value st v
      let (st2, ss, hs) := encode_headers st1 rest
      (st2, s.toList ++ ss, (n, wv) :: hs)

/-- AgentService.to_grpc_record: encodes value, then key, then each
header, collecting the schema announcements produced (in that order);
origin None becomes the proto3 empty string, timestamp presence is kept.
The correlation id is left at its proto default 0 — the read loop
assigns it afterwards. -/
def to_grpc_record (st : CodecState) (r : SimpleRecord) :
    CodecState × List SchemaMsg × GrpcRecord :=
  let (st1, s1, v) := to_grpc_value st r.value
  let (st2, s2, k) := to_grpc_value st1 r.key
  let (st3, hss, hs) := encode_headers st2 r.headers
  (st3, s1.toList ++ s2.toList ++ hss,
   { record_id := 0, value := v, key := k, headers := hs,
     origin := r.origin.getD "", timestamp := r.timestamp })

/-! Source role: the read stream. -/

/-- Correlation map `read_records` of one read stream: correlation id
to the pending domain record. -/
abbrev CorrMap := List (Nat × SimpleRecord)

/-- Messages the read handler yields: schema announcements and record
batches. -/
inductive SourceResponse where
  | schemaMsg (s : SchemaMsg)
  | records (rs : List GrpcRecord)

/-- First loop of a read batch: marshal every record, yielding each
record's announcements (in record order) before the batch message. -/
def marshal_batch (st : CodecState) :
    List SimpleRecord → CodecState × List SchemaMsg × List GrpcRecord
  | [] => (st, [], [])
  | r :: rs =>
      let (st1, ss, g) := to_grpc_record st r
      let (st2, ss', gs) := marshal_batch st1 rs
      (st2, ss ++ ss', g :: gs)

/-- Second loop of a read batch: `last_record_id += 1`, stamp the id on
the wire record, retain `read_records[last_record_id] = record`. -/
def assign_ids (l : Nat) (m : CorrMap) :
    List (GrpcRecord × SimpleRecord) → Nat × CorrMap × List GrpcRecord
  | [] => (l, m, [])
  | (g, r) :: rest =>
      let (l', m', gs) := assign_ids (l + 1) ((l + 1, r) :: m) rest
      (l', m', { g with record_id := l + 1 } :: gs)

/-- State and output of the read loop. -/
structure ReadOut where
  codec : CodecState
  last_record_id : Nat
  read_records : CorrMap
  responses : List SourceResponse

/-- One iteration of the read loop body for a batch returned by
`self.agent.read()`: nothing is emitted for an empty batch; otherwise
announcements come first, then the single records message carrying the
freshly assigned ids. -/
def emit_batch (st : CodecState) (l : Nat) (m : CorrMap)
    (batch : List SimpleRecord) : ReadOut :=
  if batch.length = 0 then ⟨st, l, m, []⟩
  else
    let (st', ss, gs) := marshal_batch st batch
    let (l', m', withIds) := assign_ids l m (gs.zip batch)
    ⟨st', l', m', ss.map SourceResponse.schemaMsg ++ [SourceResponse.records withIds]⟩

/-- The emit loop of `AgentService.read` over the successive batches
the agent's blocking read returns, threading codec state, the
`last_record_id` counter and the correlation map. -/
def read_loop (st : CodecState) (l : Nat) (m : CorrMap) :
    List (List SimpleRecord) → ReadOut
  | [] => ⟨st, l, m, []⟩
  | b :: bs =>
      let o1 := emit_batch st l m b
      let o2 := read_loop o1.codec o1.last_record_id o1.read_records bs
      ⟨o2.codec, o2.last_record_id, o2.read_records, o1.responses ++ o2.responses⟩

/-- A whole read stream: `read` initializes `read_records = {}` and
`last_record_id = 0` per call, so the correlation counter is reset for
every stream even though the codec state is shared. -/
def read_stream (st : CodecState) (batches : List (List SimpleRecord)) : ReadOut :=
  read_loop st 0 [] batches

/-- Correlation ids of the records carried by a response message. -/
def responseIds : SourceResponse → List Nat
  | .records rs => rs.map (fun g => g.record_id)
  | _ => []

/-- Correlation ids emitted over a response sequence, in order. -/
def emittedIds : List SourceResponse → List Nat
  | [] => []
  | r :: rest => responseIds r ++ emittedIds rest

/-! Ack loop of the Source role. -/

/-- PermanentFailure sub-message of a SourceRequest. -/
structure PermanentFailure where
  record_id : Nat
  error_message : String

/-- Inbound SourceRequest: committed correlation ids and an optional
permanent failure. -/
structure SourceRequest where
  committed_records : List Nat
  permanent_failure : Option PermanentFailure

/-- Invocations of agent acknowledgment hooks performed by the ack
loop, recorded as effects (the hooks themselves are agent code outside
the bridge).  The permanent-failure hook receives the popped record,
which the source passes along even when the id was unknown — hence the
`Option`. -/
inductive HookCall where
  | commit (record : SimpleRecord)
  | permanent_failure (record : Option SimpleRecord) (error_message : String)

/-- Commit handling inside handle_read_requests: each committed id is
popped from `read_records`; the commit hook runs only when the id was
present, with the original record. -/
def handle_commits (m : CorrMap) : List Nat → CorrMap × List HookCall
  | [] => (m, [])
  | rid :: rest =>
      match dict_pop m rid with
      | (some r, m') =>
          let (m2, calls) := handle_commits m' rest
          (m2, HookCall.commit r :: calls)
      | (Option.none, m') => handle_commits m' rest

/-- AgentService.handle_read_requests on one inbound request: commits
first, then the permanent failure, whose hook is invoked
unconditionally with whatever the pop returned (None when the id was
unknown) and the reconstructed error message. -/
def handle_one_request (m : CorrMap) (req : SourceRequest) :
    CorrMap × List HookCall :=
  let (m1, calls) := handle_commits m req.committed_records
  match req.permanent_failure with
  | Option.none => (m1, calls)
  | some pf =>
      let (r, m2) := dict_pop m1 pf.record_id
      (m2, calls ++ [HookCall.permanent_failure r pf.error_message])

/-! Processor role. -/

/-- Parsing of an announced schema
(`fastavro.parse_schema(json.loads(request.schema.value))`): the
announced string is the canonical form, which is the identity our
schema model carries. -/
def parse_announced (s : String) : AvroSchema := ⟨s⟩

/-- Application of an inbound schema announcement to
`self.client_schemas` (dict assignment: the new binding shadows any
older one for the same id). -/
def apply_announcement (cache : SchemaCache) : Option SchemaMsg → SchemaCache
  | Option.none => cache
  | some s => (s.schema_id, parse_announced s.value) :: cache

/-- Behavior of the agent's process method on one decoded record:
either the list of output records or the `str(e)` of the exception it
raised.  The synchronous-or-Future dual contract collapses to the
eventual result; `wrap_in_record` normalization is the identity on
already-built records. -/
abbrev ProcAgent := RecordWithId → Except String (List SimpleRecord)

/-- ProcessorResult message: the input record's id, the output records,
and the error field (`some` when `grpc_result.error` was assigned). -/
structure ProcessorResult where
  record_id : Nat
  records : List GrpcRecord
  error : Option String

/-- Messages the process handler yields. -/
inductive ProcessorResponse where
  | schemaMsg (s : SchemaMsg)
  | results (rs : List ProcessorResult)

/-- Body of the per-record try/except in `AgentService.process`: decode
the record, run the agent, marshal the outputs (announcements first),
and on any exception emit the result carrying `str(e)` instead.  A
failure before any output was marshalled leaves the codec state
untouched and the result's record list empty. -/
def process_record (cache : SchemaCache) (st : CodecState) (agent : ProcAgent)
    (g : GrpcRecord) : CodecState × List ProcessorResponse :=
  match from_grpc_record cache g with
  | .error e =>
      (st, [.results [⟨g.record_id, [], some e.message⟩]])
  | .ok dr =>
      match agent dr with
      | .error msg => (st, [.results [⟨g.record_id, [], some msg⟩]])
      | .ok outs =>
          let (st', ss, gs) := marshal_batch st outs
          (st', ss.map ProcessorResponse.schemaMsg
                  ++ [.results [⟨g.record_id, gs, Option.none⟩]])

/-- The loop over `request.records`: every record is handled by its own
try/except, so the stream always moves on to the next record. -/
def process_records (cache : SchemaCache) (st : CodecState) (agent : ProcAgent) :
    List GrpcRecord → CodecState × List ProcessorResponse
  | [] => (st, [])
  | g :: gs =>
      let (st1, out1) := process_record cache st agent g
      let (st2, out2) := process_records cache st1 agent gs
      (st2, out1 ++ out2)

/-- Inbound ProcessorRequest: optional schema announcement plus
records. -/
structure ProcessorRequest where
  schema : Option SchemaMsg
  records : List GrpcRecord

/-- One iteration of `AgentService.process`: apply the announcement to
the inbound cache, then handle each record. -/
def process_request (cache : SchemaCache) (st : CodecState) (agent : ProcAgent)
    (req : ProcessorRequest) :
    SchemaCache × CodecState × List ProcessorResponse :=
  let cache' := apply_announcement cache req.schema
  let (st', out) := process_records cache' st agent req.records
  (cache', st', out)

/-! Sink role. -/

/-- Behavior of the agent's write method on one decoded record: unit on
success or the `str(e)` of the exception it raised. -/
abbrev SinkAgent := RecordWithId → Except String Unit

/-- Inbound SinkRequest: optional schema announcement and at most one
record. -/
structure SinkRequest where
  schema : Option SchemaMsg
  record : Option GrpcRecord

/-- SinkResponse message: the echoed correlation id and the error field
(`some` when the except branch ran). -/
structure SinkResponse where
  record_id : Nat
  error : Option String
deriving DecidableEq

/-- One iteration of `AgentService.write`: apply the announcement, then
if a record is present decode it and run the agent's write inside
try/except, echoing the record's id with no error on success and with
`str(e)` on failure. -/
def write_request (cache : SchemaCache) (agent : SinkAgent) (req : SinkRequest) :
    SchemaCache × List SinkResponse :=
  let cache' := apply_announcement cache req.schema
  match req.record with
  | Option.none => (cache', [])
  | some g =>
      match from_grpc_record cache' g with
      | .error e => (cache', [⟨g.record_id, some e.message⟩])
      | .ok dr =>
          match agent dr with
          | .ok _ => (cache', [⟨g.record_id, Option.none⟩])
          | .error msg => (cache', [⟨g.record_id, some msg⟩])

/-- The whole write stream: the async-for loop over inbound requests;
a per-record failure produced a response and the loop continues. -/
def write_stream (cache : SchemaCache) (agent : SinkAgent) :
    List SinkRequest → SchemaCache × List SinkResponse
  | [] => (cache, [])
  | req :: rest =>
      let (c1, out1) := write_request cache agent req
      let (c2, out2) := write_stream c1 agent rest
      (c2, out1 ++ out2)

/-! Reflective capability dispatch (`call_method_if_exists`). -/

/-- An attribute of a Python object: a callable with its declared
parameter count (what `len(inspect.signature(method).parameters)`
reports) and behavior as a function of the positional arguments it is
actually given, or a non-callable attribute. -/
inductive PyAttr (α β : Type) where
  | callableAttr (paramCount : Nat) (fn : List α → β)
  | plainAttr

/-- A Python object as the dispatch helper sees it: its attribute
dictionary. -/
structure PyObject (α β : Type) where
  attrs : List (String × PyAttr α β)

/-- Observable outcome of `call_method_if_exists`: either nothing was
invoked (the helper returned Python None), or the method was invoked
with exactly the recorded positional arguments. -/
inductive DispatchOutcome (α β : Type) where
  | noCall
  | called (args : List α) (result : β)

/-- call_method_if_exists from the source: `getattr(klass, method,
None)`; if the result is callable, call it with all positional
arguments when the declared parameter count suffices, and with only the
first declared-count arguments otherwise; if absent or not callable,
return None without invoking anything.  Keyword arguments are passed
through unchanged and not modelled. -/
def call_method_if_exists {α β : Type} (obj : PyObject α β) (name : String)
    (args : List α) : DispatchOutcome α β :=
  match dict_lookup name obj.attrs with
  | Option.none => .noCall
  | some .plainAttr => .noCall
  | some (.callableAttr n fn) =>
      if n ≥ args.length then .called args (fn args)
      else .called (args.take n) (fn (args.take n))

/-! Main hook executor and the crash path. -/

/-- Attributes Python's standard `os` module defines among the names
this file's process-exit path could refer to: `os._exit` exists,
`os.exit` does not (process exit is `sys.exit` or `os._exit`). -/
def os_module_has : String → Bool :=
  fun a => a = "_exit" || a = "environ"

/-- Outcome of the main-executor thread: the hook returned, the process
was terminated with an exit status, or an exception escaped `run` so
only the thread died while the process kept running. -/
inductive ThreadOutcome where
  | finished
  | processExit (code : Nat)
  | uncaught (e : PyErr)
deriving DecidableEq

/-- crash_process from the source: logs and evaluates `os.exit(1)`.
Python's os module has no attribute `exit`, so the attribute access
raises AttributeError instead of terminating the process. -/
def crash_process : ThreadOutcome :=
  if os_module_has "exit" then .processExit 1
  else .uncaught (.attributeError "exit")

/-- MainExecutor.run from the source: runs the agent's main hook
(modelled by its eventual result); when the hook raises, the except
branch logs and runs the onError callback, so whatever that callback
does — including raising — is the thread's outcome. -/
def MainExecutor.run (onError : ThreadOutcome) :
    Except PyErr Unit → ThreadOutcome
  | .ok _ => .finished
  | .error _ => onError

/-! Helper lemmas. -/

theorem dict_lookup_remove_self {κ α : Type} [DecidableEq κ] (k : κ)
    (m : List (κ × α)) : dict_lookup k (dict_remove k m) = Option.none := by
  induction m with
  | nil => rfl
  | cons p rest ih =>
    obtain ⟨k', v⟩ := p
    by_cases h : k = k'
    · subst h; simp [dict_remove, ih]
    · simp [dict_remove, dict_lookup, h, ih]

theorem dict_lookup_remove_ne {κ α : Type} [DecidableEq κ] {j k : κ}
    (h : j ≠ k) (m : List (κ × α)) :
    dict_lookup j (dict_remove k m) = dict_lookup j m := by
  induction m with
  | nil => rfl
  | cons p rest ih =>
    obtain ⟨k', v⟩ := p
    by_cases hk : k = k'
    · subst hk
      simp [dict_remove, dict_lookup, h, ih]
    · by_cases hj : j = k' <;> simp [dict_remove, dict_lookup, hk, hj, ih]

theorem emittedIds_append (a b : List SourceResponse) :
    emittedIds (a ++ b) = emittedIds a ++ emittedIds b := by
  induction a with
  | nil => rfl
  | cons r rest ih => simp [emittedIds, ih]

theorem emittedIds_schemaMsgs (ss : List SchemaMsg) :
    emittedIds (ss.map SourceResponse.schemaMsg) = [] := by
  induction ss with
  | nil => rfl
  | cons s rest ih => simp [emittedIds, responseIds, ih]

theorem assign_ids_spec (ps : List (GrpcRecord × SimpleRecord)) :
    ∀ (l : Nat) (m : CorrMap),
      (assign_ids l m ps).1 = l + ps.length
      ∧ ((assign_ids l m ps).2.2.map fun g => g.record_id)
          = List.range' (l + 1) ps.length := by
  induction ps with
  | nil => intro l m; simp [assign_ids]
  | cons p rest ih =>
    intro l m
    obtain ⟨g, r⟩ := p
    obtain ⟨h1, h2⟩ := ih (l + 1) ((l + 1, r) :: m)
    rcases hX : assign_ids (l + 1) ((l + 1, r) :: m) rest with ⟨l', m', gs⟩
    rw [hX] at h1 h2
    simp only at h1 h2
    simp only [assign_ids, hX, List.length_cons, List.map_cons, List.range'_succ]
    refine ⟨by omega, ?_⟩
    rw [h2]

theorem marshal_batch_length (batch : List SimpleRecord) :
    ∀ st : CodecState, (marshal_batch st batch).2.2.length = batch.length := by
  induction batch with
  | nil => intro st; rfl
  | cons r rs ih =>
    intro st
    rcases h1 : to_grpc_record st r with ⟨st1, ss, g⟩
    rcases h2 : marshal_batch st1 rs with ⟨st2, ss', gs⟩
    have h3 := ih st1
    rw [h2] at h3
    simp only [marshal_batch, h1, h2]
    simpa using h3

theorem emit_batch_spec (st : CodecState) (l : Nat) (m : CorrMap)
    (batch : List SimpleRecord) :
    (emit_batch st l m batch).last_record_id = l + batch.length
    ∧ emittedIds (emit_batch st l m batch).responses
        = List.range' (l + 1) batch.length := by
  by_cases hb : batch.length = 0
  · simp [emit_batch, hb, emittedIds]
  · rcases hm : marshal_batch st batch with ⟨st', ss, gs⟩
    have hlen : gs.length = batch.length := by
      have := marshal_batch_length batch st; rw [hm] at this; simpa using this
    have hzip : (gs.zip batch).length = batch.length := by
      simp [List.length_zip, hlen]
    obtain ⟨h1, h2⟩ := assign_ids_spec (gs.zip batch) l m
    rcases ha : assign_ids l m (gs.zip batch) with ⟨l', m', withIds⟩
    rw [ha] at h1 h2
    simp only [emit_batch, hb, if_false, hm, ha]
    constructor
    · simpa [hzip] using h1
    · rw [emittedIds_append, emittedIds_schemaMsgs]
      simp only [emittedIds, responseIds, List.append_nil, List.nil_append]
      simp only at h2
      rw [h2, hzip]

theorem read_loop_spec (bs : List (List SimpleRecord)) :
    ∀ (st : CodecState) (l : Nat) (m : CorrMap),
      (read_loop st l m bs).last_record_id = l + (bs.map List.length).sum
      ∧ emittedIds (read_loop st l m bs).responses
          = List.range' (l + 1) (bs.map List.length).sum := by
  induction bs with
  | nil => intro st l m; simp [read_loop, emittedIds]
  | cons b rest ih =>
    intro st l m
    obtain ⟨he1, he2⟩ := emit_batch_spec st l m b
    obtain ⟨hr1, hr2⟩ :=
      ih (emit_batch st l m b).codec (emit_batch st l m b).last_record_id
        (emit_batch st l m b).read_records
    simp only [read_loop, List.map_cons, List.sum_cons]
    rw [he1] at hr1 hr2
    refine ⟨?_, ?_⟩
    · rw [he1, hr1]; omega
    · rw [emittedIds_append, he2, he1, hr2]
      have := List.range'_append_1 (l + 1) b.length ((rest.map List.length).sum)
      rw [show l + b.length + 1 = l + 1 + b.length by omega, this]
      congr 1
      omega

/-! Claim theorems. -/

/-- C1: over a whole Source read stream — started, as `read` does, with a
fresh `last_record_id = 0` and empty correlation map, for any shared
codec state — the correlation ids stamped on the emitted records are
exactly 1, 2, ..., N in emission order (strictly increasing, starting
at 1, independent of any other stream's activity); and committing an id
that is present in the correlation map removes exactly that one entry
(the committed id no longer resolves, every other id resolves as
before) while invoking the agent's commit hook with the original domain
record stored under that id, and nothing else. -/
theorem source_correlation_tracking (st : CodecState)
    (batches : List (List SimpleRecord)) (m : CorrMap) (i : Nat)
    (r : SimpleRecord) (h : dict_lookup i m = some r) :
    emittedIds (read_stream st batches).responses
        = List.range' 1 (batches.map List.length).sum
    ∧ handle_one_request m ⟨[i], Option.none⟩
        = (dict_remove i m, [HookCall.commit r])
    ∧ dict_lookup i (dict_remove i m) = Option.none
    ∧ ∀ j, j ≠ i → dict_lookup j (dict_remove i m) = dict_lookup j m := by
  refine ⟨?_, ?_, dict_lookup_remove_self i m, fun j hj => dict_lookup_remove_ne hj m⟩
  · have := (read_loop_spec batches st 0 []).2
    simpa [read_stream] using this
  · simp [handle_one_request, handle_commits, dict_pop, h]

/-- Record with no payload, used to instantiate claim theorems. -/
def rec0 : SimpleRecord :=
  ⟨.none, .none, [], Option.none, Option.none⟩

/-- Witness for C1 at a concrete stream of two one-record batches and a
one-entry correlation map. -/
theorem source_correlation_tracking_witness :
    emittedIds (read_stream ⟨0, []⟩ [[rec0], [rec0]]).responses = [1, 2]
    ∧ handle_one_request [(3, rec0)] ⟨[3], Option.none⟩
        = ([], [HookCall.commit rec0])
    ∧ dict_lookup 3 (dict_remove 3 [(3, rec0)]) = Option.none
    ∧ ∀ j, j ≠ 3 →
        dict_lookup j (dict_remove 3 [(3, rec0)]) = dict_lookup j [(3, rec0)] :=
  source_correlation_tracking ⟨0, []⟩ [[rec0], [rec0]] [(3, rec0)] 3 rec0 rfl

/-- Codec state after encoding an AvroValue of schema "A" from a fresh
bridge instance: "A" is registered under id 1. -/
def c2_st1 : CodecState :=
  (to_grpc_value ⟨0, []⟩ (.avroValue ⟨"A"⟩ .null)).1

/-- Codec state after then encoding an AvroValue of schema "B": "B" is
registered under id 2 and the counter now reads 2. -/
def c2_st2 : CodecState :=
  (to_grpc_value c2_st1 (.avroValue ⟨"B"⟩ .null)).1

/-- C2: the claim fails on the code.  After schema "A" was assigned
id 1 and schema "B" id 2, re-encoding a value with schema "A" emits no
announcement (as the claim says) but attaches schema id 2 — the
current value of the `self.schema_id` counter — to the wire value,
not the id 1 that the registry recorded for "A" and that the claim
requires: `to_grpc_value` never reads `self.schemas[schema_str]` back,
it always writes `grpc_value.schema_id = self.schema_id`.  This
theorem evaluates the code at that failing input. -/
theorem schema_reuse_attaches_latest_id :
    dict_lookup "A" c2_st2.schemas = some 1
    ∧ (to_grpc_value c2_st2 (.avroValue ⟨"A"⟩ .null)).2.1 = Option.none
    ∧ (to_grpc_value c2_st2 (.avroValue ⟨"A"⟩ .null)).2.2
        = some (.avroValue 2 AvroDatum.null) :=
  ⟨rfl, rfl, rfl⟩

/-- C3: decoding the wire value produced by encoding any supported
domain value yields a domain value equal to the original, provided the
inbound schema cache maps the schema id the encoder attached to the
value's own schema (the announced schema) whenever the value is
schema-typed.  All other kinds — absent, bytes, string, boolean,
64-bit integer, float, schema-less mapping/sequence — round-trip
unconditionally. -/
theorem decode_encode_roundtrip (st : CodecState) (cache : SchemaCache)
    (v : PyValue)
    (h : ∀ sch d sid pl, v = PyValue.avroValue sch d →
        (to_grpc_value st v).2.2 = some (WireValue.avroValue sid pl) →
        dict_lookup sid cache = some sch) :
    from_grpc_value cache (to_grpc_value st v).2.2 = Except.ok v := by
  cases v with
  | avroValue sch d =>
    rcases hl : dict_lookup (to_parsing_canonical_form sch) st.schemas with _ | oldId
    · have henc : (to_grpc_value st (.avroValue sch d)).2.2
          = some (.avroValue (st.schema_id + 1) (schemaless_writer sch d)) := by
        simp [to_grpc_value, hl]
      have hc := h sch d (st.schema_id + 1) (schemaless_writer sch d) rfl henc
      rw [henc]
      simp [from_grpc_value, hc, schemaless_reader, schemaless_writer]
    · have henc : (to_grpc_value st (.avroValue sch d)).2.2
          = some (.avroValue st.schema_id (schemaless_writer sch d)) := by
        simp [to_grpc_value, hl]
      have hc := h sch d st.schema_id (schemaless_writer sch d) rfl henc
      rw [henc]
      simp [from_grpc_value, hc, schemaless_reader, schemaless_writer]
  | none => rfl
  | bytes b => rfl
  | str s => rfl
  | boolean b => rfl
  | int i => rfl
  | float d => rfl
  | dict fields => rfl
  | list elems => rfl

/-- Schema used by the C3 witness. -/
def schS : AvroSchema := ⟨"s"⟩

/-- Witness for C3 at a schema-typed value encoded from a fresh bridge,
with the cache holding the announced schema under the attached id 1. -/
theorem decode_encode_roundtrip_witness :
    from_grpc_value [(1, schS)]
        (to_grpc_value ⟨0, []⟩ (PyValue.avroValue schS AvroDatum.null)).2.2
      = Except.ok (PyValue.avroValue schS AvroDatum.null) :=
  decode_encode_roundtrip ⟨0, []⟩ [(1, schS)]
    (PyValue.avroValue schS AvroDatum.null)
    (by
      intro sch d sid pl hv hw
      injection hv with e1 e2
      subst e1
      subst e2
      rw [show (to_grpc_value ⟨0, []⟩ (PyValue.avroValue schS AvroDatum.null)).2.2
            = some (WireValue.avroValue 1 AvroDatum.null) from rfl] at hw
      injection hw with hw1
      injection hw1 with hs1 hs2
      subst hs1
      rfl)

theorem process_records_append (cache : SchemaCache) (agent : ProcAgent)
    (a b : List GrpcRecord) :
    ∀ st : CodecState,
      process_records cache st agent (a ++ b)
        = ((process_records cache (process_records cache st agent a).1 agent b).1,
           (process_records cache st agent a).2
             ++ (process_records cache (process_records cache st agent a).1 agent b).2) := by
  induction a with
  | nil => intro st; simp [process_records]
  | cons g rest ih =>
    intro st
    rcases hg : process_record cache st agent g with ⟨st1, out1⟩
    simp only [List.cons_append, process_records, hg]
    have hr := ih st1
    simp only [List.append_eq] at hr ⊢
    rw [hr]
    simp [List.append_assoc]

/-- C4 (amended): on a Processor stream, an inbound record whose agent
process invocation raises an exception yields a result for exactly that
record's correlation id carrying the exception's description `str(e)`
as the error (which is empty exactly when the exception's message is
empty — the claim's "non-empty" does not hold in general) and no output
records, the codec state is untouched, the stream is not aborted, and
every subsequent inbound record is processed exactly as it would have
been on its own. -/
theorem process_error_isolated (cache : SchemaCache) (st : CodecState)
    (agent : ProcAgent) (pre post : List GrpcRecord) (bad : GrpcRecord)
    (dr : RecordWithId) (msg : String)
    (hdec : from_grpc_record cache bad = Except.ok dr)
    (hraise : agent dr = Except.error msg) :
    process_records cache st agent (pre ++ bad :: post)
      = ((process_records cache (process_records cache st agent pre).1 agent post).1,
         (process_records cache st agent pre).2
           ++ ProcessorResponse.results [⟨bad.record_id, [], some msg⟩]
             :: (process_records cache (process_records cache st agent pre).1 agent post).2) := by
  have hbad : ∀ s : CodecState, process_record cache s agent bad
      = (s, [ProcessorResponse.results [⟨bad.record_id, [], some msg⟩]]) := by
    intro s
    simp [process_record, hdec, hraise]
  rw [process_records_append]
  rcases hp : process_records cache st agent pre with ⟨st1, out1⟩
  simp [process_records, hbad st1]

/-- Wire record with no payload and correlation id `n`, used to
instantiate claim theorems. -/
def bareGrpc (n : Nat) : GrpcRecord :=
  ⟨n, Option.none, Option.none, [], "", Option.none⟩

/-- The domain record `bareGrpc n` decodes to. -/
def bareDr (n : Nat) : RecordWithId :=
  ⟨n, .none, .none, [], Option.none, Option.none⟩

/-- Processor agent used by the C4 witness: raises "E" on record 1,
returns no output records otherwise. -/
def procAgentW : ProcAgent :=
  fun r => if r.record_id = 1 then Except.error "E" else Except.ok []

/-- Witness for C4 at a three-record stream whose middle record's agent
invocation raises. -/
theorem process_error_isolated_witness :
    process_records [] ⟨0, []⟩ procAgentW ([bareGrpc 2] ++ bareGrpc 1 :: [bareGrpc 3])
      = ((process_records []
            (process_records [] ⟨0, []⟩ procAgentW [bareGrpc 2]).1 procAgentW
            [bareGrpc 3]).1,
         (process_records [] ⟨0, []⟩ procAgentW [bareGrpc 2]).2
           ++ ProcessorResponse.results [⟨(bareGrpc 1).record_id, [], some "E"⟩]
             :: (process_records []
                  (process_records [] ⟨0, []⟩ procAgentW [bareGrpc 2]).1 procAgentW
                  [bareGrpc 3]).2) :=
  process_error_isolated [] ⟨0, []⟩ procAgentW [bareGrpc 2] [bareGrpc 3]
    (bareGrpc 1) (bareDr 1) "E" rfl rfl

/-- C4 counterexample: the claim as stated — the result of a record
whose agent invocation raises always carries a NON-EMPTY error
description — is false.  Python's `str(e)` is empty for an exception
constructed with no message; the bridge then assigns the empty string
to the result's error field.  Concretely, an agent raising an
empty-message exception on record 7 yields a result whose error
description is `""`. -/
theorem process_error_empty_description :
    (process_records [] ⟨0, []⟩ (fun _ => Except.error "") [bareGrpc 7]).2
        = [ProcessorResponse.results [⟨7, [], some ""⟩]]
    ∧ String.length "" = 0 :=
  ⟨rfl, rfl⟩

/-- C5 (amended): for a correlation id absent from the Source map, a
commit is a full no-op — map unchanged, no hook invoked, no error
raised; a permanent-failure message for an unknown id likewise leaves
the map unchanged and raises no error, but — unlike the claim's
"no permanent-failure hook is invoked" — the bridge still invokes the
agent's permanent-failure hook, passing None as the record together
with the reconstructed error. -/
theorem unknown_id_handling (m : CorrMap) (i : Nat) (msg : String)
    (h : dict_lookup i m = Option.none) :
    handle_one_request m ⟨[i], Option.none⟩ = (m, [])
    ∧ handle_one_request m ⟨[], some ⟨i, msg⟩⟩
        = (m, [HookCall.permanent_failure Option.none msg]) := by
  constructor
  · simp [handle_one_request, handle_commits, dict_pop, h]
  · simp [handle_one_request, handle_commits, dict_pop, h]

/-- Witness for C5 at a one-entry map and the unknown id 99. -/
theorem unknown_id_handling_witness :
    handle_one_request [(1, rec0)] ⟨[99], Option.none⟩ = ([(1, rec0)], [])
    ∧ handle_one_request [(1, rec0)] ⟨[], some ⟨99, "boom"⟩⟩
        = ([(1, rec0)], [HookCall.permanent_failure Option.none "boom"]) :=
  unknown_id_handling [(1, rec0)] 99 "boom" rfl

/-- C5 counterexample: the claim as stated — handling a
permanent-failure message for an unknown id invokes no
permanent-failure hook — is false.  `handle_read_requests` guards the
commit hook behind `if record is not None` but calls the
permanent-failure hook unconditionally with whatever `pop` returned:
for the unknown id 99 the hook is invoked (with None as the record). -/
theorem unknown_failure_id_invokes_hook :
    (handle_one_request [] ⟨[], some ⟨99, "boom"⟩⟩).2
        = [HookCall.permanent_failure Option.none "boom"]
    ∧ (handle_one_request [] ⟨[], some ⟨99, "boom"⟩⟩).2 ≠ [] := by
  refine ⟨rfl, ?_⟩
  intro hc
  simp [handle_one_request, handle_commits, dict_pop, dict_lookup] at hc

/-- C6: decoding a wire value populated as the schema-typed variant
whose schema id has no entry in the inbound schema cache raises the
KeyError for that id — it never yields any successfully decoded value,
in particular no unstructured (bytes or JSON) fallback. -/
theorem unknown_schema_id_is_error (cache : SchemaCache) (sid : Nat)
    (pl : AvroBytes) (h : dict_lookup sid cache = Option.none) :
    from_grpc_value cache (some (WireValue.avroValue sid pl))
      = Except.error (PyErr.keyError sid) := by
  simp [from_grpc_value, h]

/-- Witness for C6 at an empty cache and schema id 5. -/
theorem unknown_schema_id_is_error_witness :
    from_grpc_value [] (some (WireValue.avroValue 5 AvroDatum.null))
      = Except.error (PyErr.keyError 5) :=
  unknown_schema_id_is_error [] 5 AvroDatum.null rfl

theorem write_stream_append (agent : SinkAgent) (a b : List SinkRequest) :
    ∀ cache : SchemaCache,
      write_stream cache agent (a ++ b)
        = ((write_stream (write_stream cache agent a).1 agent b).1,
           (write_stream cache agent a).2
             ++ (write_stream (write_stream cache agent a).1 agent b).2) := by
  induction a with
  | nil => intro cache; simp [write_stream]
  | cons req rest ih =>
    intro cache
    rcases hr : write_request cache agent req with ⟨c1, out1⟩
    simp only [List.cons_append, write_stream, hr]
    have h2 := ih c1
    simp only [List.append_eq] at h2 ⊢
    rw [h2]
    simp [List.append_assoc]

/-- C7 (amended): on a Sink stream, a record whose agent write fails
yields a response echoing that record's correlation id with the
exception's description `str(e)` as the error (which is empty exactly
when the exception's message is empty — the claim's "non-empty" does
not hold in general); a record whose write succeeds yields a response
echoing its id with no error set; and the stream is never aborted: the
responses of any two consecutive segments of requests are exactly the
concatenation of each segment's responses. -/
theorem sink_write_responses (cache : SchemaCache) (agent : SinkAgent)
    (gf okRec : GrpcRecord) (df ds : RecordWithId) (msg : String)
    (hdf : from_grpc_record cache gf = Except.ok df)
    (hfail : agent df = Except.error msg)
    (hds : from_grpc_record cache okRec = Except.ok ds)
    (hok : agent ds = Except.ok ()) :
    write_request cache agent ⟨Option.none, some gf⟩
        = (cache, [⟨gf.record_id, some msg⟩])
    ∧ write_request cache agent ⟨Option.none, some okRec⟩
        = (cache, [⟨okRec.record_id, Option.none⟩])
    ∧ ∀ reqs1 reqs2, write_stream cache agent (reqs1 ++ reqs2)
        = ((write_stream (write_stream cache agent reqs1).1 agent reqs2).1,
           (write_stream cache agent reqs1).2
             ++ (write_stream (write_stream cache agent reqs1).1 agent reqs2).2) := by
  refine ⟨?_, ?_, fun reqs1 reqs2 => write_stream_append agent reqs1 reqs2 cache⟩
  · simp [write_request, apply_announcement, hdf, hfail]
  · simp [write_request, apply_announcement, hds, hok]

/-- Sink agent used by the C7 witness: fails with "E" on record 7,
succeeds otherwise. -/
def sinkAgentW : SinkAgent :=
  fun r => if r.record_id = 7 then Except.error "E" else Except.ok ()

/-- Witness for C7 at record 7 (failing write) and record 8
(succeeding write). -/
theorem sink_write_responses_witness :
    write_request [] sinkAgentW ⟨Option.none, some (bareGrpc 7)⟩
        = ([], [⟨(bareGrpc 7).record_id, some "E"⟩])
    ∧ write_request [] sinkAgentW ⟨Option.none, some (bareGrpc 8)⟩
        = ([], [⟨(bareGrpc 8).record_id, Option.none⟩])
    ∧ ∀ reqs1 reqs2, write_stream [] sinkAgentW (reqs1 ++ reqs2)
        = ((write_stream (write_stream [] sinkAgentW reqs1).1 sinkAgentW reqs2).1,
           (write_stream [] sinkAgentW reqs1).2
             ++ (write_stream (write_stream [] sinkAgentW reqs1).1 sinkAgentW reqs2).2) :=
  sink_write_responses [] sinkAgentW (bareGrpc 7) (bareGrpc 8) (bareDr 7)
    (bareDr 8) "E" rfl rfl rfl rfl

/-- C7 counterexample: the claim as stated — a failing write's response
carries a NON-EMPTY error message — is false: an agent write raising an
exception whose `str` is empty yields a response whose error message is
`""` (which on a proto3 wire is indistinguishable from no error at
all). -/
theorem write_error_empty_description :
    (write_request [] (fun _ => Except.error "")
        ⟨Option.none, some (bareGrpc 7)⟩).2
        = [⟨7, some ""⟩]
    ∧ String.length "" = 0 :=
  ⟨rfl, rfl⟩

/-- C8: whenever from_grpc_record produces a domain record, that record
is tagged with the wire record's correlation id, its origin is the wire
origin string when non-empty and None (the "no origin" marker) when the
wire field is empty, and its timestamp is exactly the wire timestamp
field's content under explicit presence — present if and only if the
field was set, never defaulted to zero. -/
theorem from_grpc_record_shape (cache : SchemaCache) (g : GrpcRecord)
    (dr : RecordWithId) (h : from_grpc_record cache g = Except.ok dr) :
    dr.record_id = g.record_id
    ∧ dr.origin = (if g.origin = "" then Option.none else some g.origin)
    ∧ dr.timestamp = g.timestamp := by
  rcases hv : from_grpc_value cache g.value with e | v <;>
    rcases hk : from_grpc_value cache g.key with e' | k <;>
      rcases hh : decode_headers cache g.headers with e'' | hs <;>
        simp only [from_grpc_record, hv, hk, hh, Bind.bind, Except.bind,
          Except.ok.injEq] at h <;>
          first
            | exact Except.noConfusion h
            | (subst h; exact ⟨rfl, rfl, rfl⟩)

/-- Witness for C8 at a record with a non-empty origin and a timestamp
explicitly set to zero (which stays present as zero, not absent). -/
theorem from_grpc_record_shape_witness :
    (bareDr 5 : RecordWithId).record_id
        = (⟨5, Option.none, Option.none, [], "org", some 0⟩ : GrpcRecord).record_id
    ∧ (⟨5, .none, .none, [], some "org", some 0⟩ : RecordWithId).origin
        = (if (⟨5, Option.none, Option.none, [], "org", some 0⟩ : GrpcRecord).origin = ""
           then Option.none
           else some (⟨5, Option.none, Option.none, [], "org", some 0⟩ : GrpcRecord).origin)
    ∧ (⟨5, .none, .none, [], some "org", some 0⟩ : RecordWithId).timestamp
        = (⟨5, Option.none, Option.none, [], "org", some 0⟩ : GrpcRecord).timestamp := by
  have h := from_grpc_record_shape []
    ⟨5, Option.none, Option.none, [], "org", some 0⟩
    ⟨5, .none, .none, [], some "org", some 0⟩ rfl
  exact ⟨rfl, h.2.1, h.2.2⟩

/-- C9: the claim matches the code's evident intent (the callback is
named crash_process, logs "Exiting process." and is installed as the
main executor's onError), but the code is wrong: `crash_process` calls
`os.exit(1)`, and Python's os module has no attribute `exit` (process
exit is `sys.exit` or `os._exit`), so the call raises AttributeError
inside the except branch of `MainExecutor.run`.  An uncaught exception
in a non-main thread kills only that thread; the process keeps running.
This theorem evaluates the thread at the failing input — an agent main
hook that raises — and shows its outcome is the uncaught
AttributeError, not a process exit. -/
theorem main_hook_crash_is_not_process_exit :
    MainExecutor.run crash_process (Except.error (PyErr.runtimeError "boom"))
      = ThreadOutcome.uncaught (PyErr.attributeError "exit") :=
  rfl

/-- Empty object used by the C10 witness: no attribute at all. -/
def emptyObjW : PyObject Nat Nat := ⟨[]⟩

/-- Object used by the C10 witness: a "commit" method declaring one
positional parameter and returning its first argument. -/
def oneParamObjW : PyObject Nat Nat :=
  ⟨[("commit", .callableAttr 1 (fun l => l.headD 0))]⟩

/-- C10: the capability-dispatch helper returns None without invoking
anything when the object has no attribute of the requested name or the
attribute is not callable; and when the attribute is callable but
declares fewer positional parameters than the positional arguments
supplied, it invokes it with exactly the first declared-parameter-count
arguments, silently dropping the rest. -/
theorem call_method_dispatch {α β : Type} (obj : PyObject α β) (name : String)
    (args : List α) :
    ((∀ n fn, dict_lookup name obj.attrs ≠ some (.callableAttr n fn)) →
        call_method_if_exists obj name args = .noCall)
    ∧ (∀ n fn, dict_lookup name obj.attrs = some (.callableAttr n fn) →
        n < args.length →
        call_method_if_exists obj name args
          = .called (args.take n) (fn (args.take n))) := by
  constructor
  · intro hnone
    unfold call_method_if_exists
    rcases hl : dict_lookup name obj.attrs with _ | a
    · rfl
    · cases a with
      | plainAttr => rfl
      | callableAttr n fn => exact absurd hl (hnone n fn)
  · intro n fn hl hlt
    unfold call_method_if_exists
    rw [hl]
    simp [Nat.not_le_of_lt hlt]

/-- Witness for C10: the empty object yields no call; the one-parameter
"commit" method called with two arguments is invoked with only the
first. -/
theorem call_method_dispatch_witness :
    call_method_if_exists emptyObjW "commit" [5, 6] = .noCall
    ∧ call_method_if_exists oneParamObjW "commit" [5, 6]
        = .called [5] 5 :=
  ⟨(call_method_dispatch emptyObjW "commit" [5, 6]).1
      (fun _ _ h => Option.noConfusion h),
   (call_method_dispatch oneParamObjW "commit" [5, 6]).2 1
      (fun l => l.headD 0) rfl (by decide)⟩

end GrpcService
